import Mathlib

/-!
# Verification of the `learning2write` writing environment

A shallow embedding of `learning2write/env.py` (the `WritingEnvironment` gym
environment and the `KeyStateHandler` keyboard tracker), together with a model
of the pattern-set abstraction it depends on, and proofs of the behavioural
properties stated in the design document.

Grids (`numpy` 2-D arrays of 0/1 cell values) are embedded as `List (List Nat)`;
the agent position (a pair of `numpy` ints) as a pair of `Int`; the two
pseudo-random sources (the pattern set's own generator and Python's global
`random` module) as explicit `Nat` states threaded through the functions, driven
by a concrete linear-congruential generator (the design document only requires
an implementation-chosen deterministic generator, not bit-compatibility with
CPython's Mersenne twister).
-/

namespace Learning2Write

/-- A 2-D grid of cell values, embedding a `numpy` 2-D array.
Cell values are 0/1 in every grid the program builds. -/
abbrev Grid := List (List Nat)

/-- `getCell g r c` embeds the read `g[r, c]`.  Out-of-range reads return 0;
the program only reads in bounds, so this default is never observable there. -/
def getCell (g : Grid) (r c : Nat) : Nat :=
  (g.getD r []).getD c 0

/-- `setCell g r c v` embeds the write `g[r, c] = v` (a no-op out of range;
the program only writes in bounds). -/
def setCell (g : Grid) (r c v : Nat) : Grid :=
  g.set r ((g.getD r []).set c v)

/-- `np.zeros((r, c))`: an `r × c` grid of zeros. -/
def zeros (r c : Nat) : Grid :=
  List.replicate r (List.replicate c 0)

/-- `np.rot90(g)`: rotate a rectangular grid counter-clockwise by 90 degrees.
For an `r × c` input the output is `c × r` with `out[i][j] = g[j][c-1-i]`. -/
def rot90 (g : Grid) : Grid :=
  let r := g.length
  let c := (g.headD []).length
  (List.range c).map (fun i => (List.range r).map (fun j => getCell g j (c - 1 - i)))

/-- `np.rot90(g, k)`: `k` successive counter-clockwise quarter turns. -/
def rot90k (g : Grid) : Nat → Grid
  | 0 => g
  | k + 1 => rot90 (rot90k g k)

/-- The linear-congruential pseudo-random step standing in for Python's
pseudo-random generators (the spec allows any reproducible generator). -/
def lcg (s : Nat) : Nat :=
  (s * 1103515245 + 12345) % 2147483648

/-- Draw a value in `[0, n)` (for `n > 0`) and advance the generator state.
`randBelow s 4` embeds `random.randint(0, 3)`. -/
def randBelow (s n : Nat) : Nat × Nat :=
  (lcg s % n, lcg s)

/-- Action encoding (the wire contract, `env.py` module constants). -/
def MOVE_UP : Int := 0

def MOVE_DOWN : Int := 1

def MOVE_LEFT : Int := 2

def MOVE_RIGHT : Int := 3

def FILL_SQUARE : Int := 4

def QUIT : Int := 5

/-- `WritingEnvironment.N_DISCRETE_ACTIONS`. -/
def N_DISCRETE_ACTIONS : Int := 6

/-- Modelled from the spec: `learning2write/patterns.py` (the `PatternSet`
abstraction and its procedural variants) is not among the sources; only its
interface is visible from `env.py` and the driver scripts.  Per the design
document §4.1 a pattern set has a fixed `(height, width)`, draws uniformly from
a fixed catalogue of binary templates using its own random source, and, when
its rotation flag is set, applies a uniformly random multiple-of-90° rotation
to the sample before returning it. -/
structure PatternSet where
  height : Nat
  width : Nat
  catalogue : List Grid
  withRotations : Bool
  rngState : Nat
  deriving DecidableEq, Repr

/-- Modelled from the spec: `PatternSet.sample()` draws one catalogue entry
uniformly with the set's own random source and rotates it by a random quarter
turn only when the rotation flag is set. -/
def PatternSet.sample (ps : PatternSet) : Grid × PatternSet :=
  let (i, s1) := randBelow ps.rngState ps.catalogue.length
  let g := ps.catalogue.getD i []
  if ps.withRotations then
    let (k, s2) := randBelow s1 4
    (rot90k g k, { ps with rngState := s2 })
  else
    (g, { ps with rngState := s1 })

/-- Modelled from the spec: `PatternSet.seed(value)` deterministically reseeds
the set's own random source. -/
def PatternSet.reseed (ps : PatternSet) (s : Nat) : PatternSet :=
  { ps with rngState := s }

/-- The mutable state of a `WritingEnvironment`: the pattern set (with its
random source), the work pattern `self.pattern`, the reference pattern, the
agent position, and the state of Python's global `random` module used by
`reset`'s rotation draw. -/
structure WritingEnvironment where
  patternSet : PatternSet
  pattern : Grid
  referencePattern : Grid
  agentRow : Int
  agentCol : Int
  randState : Nat
  deriving DecidableEq, Repr

namespace WritingEnvironment

/-- `self.rows = self.pattern_set.HEIGHT`. -/
def rows (e : WritingEnvironment) : Nat := e.patternSet.height

/-- `self.cols = self.pattern_set.WIDTH`. -/
def cols (e : WritingEnvironment) : Nat := e.patternSet.width

/-- The constructor `__init__`: all-zero work and reference grids, agent at
the origin.  The initial global-random state is a parameter (unseeded CPython
draws it from the OS). -/
def init (ps : PatternSet) (randState : Nat) : WritingEnvironment :=
  { patternSet := ps
    pattern := zeros ps.height ps.width
    referencePattern := zeros ps.height ps.width
    agentRow := 0
    agentCol := 0
    randState := randState }

/-- The one-hot agent-position layer built by the `state` property
(`pos = np.zeros(shape); pos[row, col] = 1`). -/
def positionLayer (e : WritingEnvironment) : Grid :=
  setCell (zeros e.rows e.cols) e.agentRow.toNat e.agentCol.toNat 1

/-- The `state` property: `np.stack((pattern, reference_pattern, pos))`,
the 3-layer observation in the order work pattern, reference pattern,
one-hot agent position. -/
def state (e : WritingEnvironment) : Grid × Grid × Grid :=
  (e.pattern, e.referencePattern, e.positionLayer)

/-- `seed`: reseeds the pattern set's generator and Python's global `random`
module from the same seed value. -/
def seed (e : WritingEnvironment) (s : Nat) : WritingEnvironment :=
  { e with patternSet := e.patternSet.reseed s, randState := s }

/-- `reset`: clears the work pattern, puts the agent at the origin, samples a
fresh reference pattern from the pattern set and rotates it by
`np.rot90(·, k=random.randint(0, 3))`, then returns the observation together
with the updated environment. -/
def reset (e : WritingEnvironment) : (Grid × Grid × Grid) × WritingEnvironment :=
  let pattern := zeros e.rows e.cols
  let (sampled, ps) := e.patternSet.sample
  let (k, rs) := randBelow e.randState 4
  let e : WritingEnvironment :=
    { e with
      pattern := pattern
      agentRow := 0
      agentCol := 0
      referencePattern := rot90k sampled k
      patternSet := ps
      randState := rs }
  (e.state, e)

/-- `_is_position_valid`: the proposed position lies in `[0, rows) × [0, cols)`. -/
def isPositionValid (e : WritingEnvironment) (point : Int × Int) : Bool :=
  decide (0 ≤ point.1 ∧ point.1 < (e.rows : Int) ∧ 0 ≤ point.2 ∧ point.2 < (e.cols : Int))

/-- `_move`: compute the target cell for a direction, and update the position
only when the target is valid.  `some e` embeds a `True` return (position
updated), `none` a `False` return; the `.error` branch embeds the
`ValueError` raised on an unrecognised direction (unreachable from `step`). -/
def move (e : WritingEnvironment) (direction : Int) :
    Except String (Option WritingEnvironment) :=
  let target : Except String (Int × Int) :=
    if direction = MOVE_UP then .ok (e.agentRow - 1, e.agentCol)
    else if direction = MOVE_DOWN then .ok (e.agentRow + 1, e.agentCol)
    else if direction = MOVE_LEFT then .ok (e.agentRow, e.agentCol - 1)
    else if direction = MOVE_RIGHT then .ok (e.agentRow, e.agentCol + 1)
    else .error "Unrecognised direction"
  match target with
  | .error msg => .error msg
  | .ok newPos =>
    if e.isPositionValid newPos then
      .ok (some { e with agentRow := newPos.1, agentCol := newPos.2 })
    else
      .ok none

/-- `step`: apply one action, returning the updated environment, the reward
and the `done` flag (the returned observation is `state` of the returned
environment and `info` is always the empty dict).  `.error` embeds the
`ValueError` raised on an unrecognised action; every mutation happens only on
`.ok` paths, as in the source, where the raise precedes any state write. -/
def step (e : WritingEnvironment) (action : Int) :
    Except String (WritingEnvironment × Int × Bool) :=
  let moveReward : Int := -1
  let correctSquareReward : Int := 3
  let incorrectSquareReward : Int := -2
  let badEnd : Int := -100
  let goodEnd : Int := 100
  let outOfBounds : Int := -1000
  if action = FILL_SQUARE then
    let row := e.agentRow.toNat
    let col := e.agentCol.toNat
    if getCell e.pattern row col ≠ 0 then
      .ok (e, incorrectSquareReward, false)
    else
      let e' := { e with pattern := setCell e.pattern row col 1 }
      if getCell e.referencePattern row col = 1 then
        .ok (e', correctSquareReward, false)
      else
        .ok (e', incorrectSquareReward, false)
  else if action = QUIT then
    .ok (e, if e.pattern = e.referencePattern then goodEnd else badEnd, true)
  else if 0 ≤ action ∧ action < N_DISCRETE_ACTIONS then
    match e.move action with
    | .ok (some e') => .ok (e', moveReward, false)
    | .ok none => .ok (e, outOfBounds, true)
    | .error msg => .error msg
  else
    .error "Unrecognised action"

end WritingEnvironment

/-- A raw keyboard event handed to the `KeyStateHandler` by the window system. -/
inductive KeyEvent where
  | press (symbol : Nat)
  | release (symbol : Nat)
  deriving DecidableEq, Repr

/-- The key symbol an event concerns. -/
def KeyEvent.symbol : KeyEvent → Nat
  | .press s => s
  | .release s => s

/-- `KeyStateHandler`: two total maps from key symbol to pressed-state,
embedding the two `defaultdict(lambda: False)` dictionaries. -/
structure KeyStateHandler where
  currState : Nat → Bool
  prevState : Nat → Bool

namespace KeyStateHandler

/-- `__init__`: both dictionaries empty, so every key reads as `False`. -/
def initial : KeyStateHandler :=
  { currState := fun _ => false, prevState := fun _ => false }

/-- `on_key_press`: record the old current state as previous, set current true. -/
def onKeyPress (h : KeyStateHandler) (symbol : Nat) : KeyStateHandler :=
  { prevState := fun k => if k = symbol then h.currState symbol else h.prevState k
    currState := fun k => if k = symbol then true else h.currState k }

/-- `on_key_release`: record the old current state as previous, set current false. -/
def onKeyRelease (h : KeyStateHandler) (symbol : Nat) : KeyStateHandler :=
  { prevState := fun k => if k = symbol then h.currState symbol else h.prevState k
    currState := fun k => if k = symbol then false else h.currState k }

/-- Dispatch one raw event to the handler. -/
def applyEvent (h : KeyStateHandler) : KeyEvent → KeyStateHandler
  | .press s => h.onKeyPress s
  | .release s => h.onKeyRelease s

/-- Dispatch a sequence of raw events, oldest first. -/
def applyEvents (h : KeyStateHandler) (events : List KeyEvent) : KeyStateHandler :=
  events.foldl applyEvent h

/-- `key_was_pressed`: up in the previous state, down in the current one. -/
def keyWasPressed (h : KeyStateHandler) (symbol : Nat) : Bool :=
  !h.prevState symbol && h.currState symbol

/-- `key_was_released`: down in the previous state, up in the current one. -/
def keyWasReleased (h : KeyStateHandler) (symbol : Nat) : Bool :=
  h.prevState symbol && !h.currState symbol

/-- `key_was_held`: down in both states. -/
def keyWasHeld (h : KeyStateHandler) (symbol : Nat) : Bool :=
  h.prevState symbol && h.currState symbol

/-- `__getitem__`: the raw current state of a key. -/
def isDown (h : KeyStateHandler) (symbol : Nat) : Bool :=
  h.currState symbol

end KeyStateHandler

/-! ## Grid lemmas -/

/-- A grid is a rectangular `r × c` array. -/
def isRect (g : Grid) (r c : Nat) : Prop :=
  g.length = r ∧ ∀ row ∈ g, row.length = c

instance (g : Grid) (r c : Nat) : Decidable (isRect g r c) :=
  decidable_of_iff (g.length = r ∧ ∀ row ∈ g, row.length = c) Iff.rfl

/-- All cell values of a grid are 0 or 1. -/
def binaryGrid (g : Grid) : Prop :=
  ∀ row ∈ g, ∀ v ∈ row, v = 0 ∨ v = 1

instance (g : Grid) : Decidable (binaryGrid g) :=
  decidable_of_iff (∀ row ∈ g, ∀ v ∈ row, v = 0 ∨ v = 1) Iff.rfl

/-- A pattern-set configuration the program supports: positive square
dimensions and a nonempty catalogue of binary grids of that shape. -/
def goodPatternSet (ps : PatternSet) : Prop :=
  0 < ps.height ∧ ps.width = ps.height ∧ ps.catalogue ≠ [] ∧
  ∀ g ∈ ps.catalogue, isRect g ps.height ps.height ∧ binaryGrid g

instance (ps : PatternSet) : Decidable (goodPatternSet ps) :=
  decidable_of_iff (0 < ps.height ∧ ps.width = ps.height ∧ ps.catalogue ≠ [] ∧
    ∀ g ∈ ps.catalogue, isRect g ps.height ps.height ∧ binaryGrid g) Iff.rfl

/-- The episode-state invariant maintained by the environment: both grids are
`rows × cols` binary grids and the agent position lies within the grid. -/
def WritingEnvironment.wf (e : WritingEnvironment) : Prop :=
  isRect e.pattern e.rows e.cols ∧ binaryGrid e.pattern ∧
  isRect e.referencePattern e.rows e.cols ∧ binaryGrid e.referencePattern ∧
  0 ≤ e.agentRow ∧ e.agentRow < (e.rows : Int) ∧
  0 ≤ e.agentCol ∧ e.agentCol < (e.cols : Int)

/-- The episode states the program can reach: a first `reset` over a supported
pattern-set configuration, then any interleaving of successful `step`s,
`seed`s and further `reset`s. -/
inductive Reachable : WritingEnvironment → Prop
  | start (e : WritingEnvironment) (h : goodPatternSet e.patternSet) :
      Reachable (e.reset).2
  | doStep (e e' : WritingEnvironment) (a r : Int) (d : Bool) :
      Reachable e → e.step a = .ok (e', r, d) → Reachable e'
  | doSeed (e : WritingEnvironment) (s : Nat) :
      Reachable e → Reachable (e.seed s)
  | doReset (e : WritingEnvironment) :
      Reachable e → Reachable (e.reset).2

/-! ## Concrete instances used to witness the theorems -/

/-- A small concrete pattern set: one asymmetric 2 × 2 template, rotation flag
unset, generator state 0. -/
def psDemo : PatternSet :=
  { height := 2, width := 2, catalogue := [[[1, 0], [0, 0]]],
    withRotations := false, rngState := 0 }

/-- A concrete environment over `psDemo` whose work pattern does not match its
reference pattern. -/
def envDemo : WritingEnvironment :=
  { patternSet := psDemo, pattern := zeros 2 2,
    referencePattern := [[1, 0], [0, 0]], agentRow := 0, agentCol := 0,
    randState := 0 }

/-- A concrete environment whose work pattern equals its reference pattern. -/
def envDemoEq : WritingEnvironment :=
  { envDemo with referencePattern := zeros 2 2 }

/-- The sequence of reference patterns produced by `n` successive `reset()`
calls. -/
def refSeq : WritingEnvironment → Nat → List Grid
  | _, 0 => []
  | e, n + 1 => ((e.reset).2).referencePattern :: refSeq (e.reset).2 n

/-- The `psDemo` configuration with a different generator state. -/
def psDemo2 : PatternSet :=
  { psDemo with rngState := 424242 }

/-- A second environment over the same pattern-set configuration as `envDemo`
but with different episode state and different random states. -/
def envDemo2 : WritingEnvironment :=
  { patternSet := psDemo2, pattern := [[1, 1], [1, 1]],
    referencePattern := [[1, 0], [0, 0]], agentRow := 1, agentCol := 1,
    randState := 999 }

theorem getD_mem_or_eq {α : Type} (l : List α) (i : Nat) (d : α) :
    l.getD i d ∈ l ∨ l.getD i d = d := by
  rw [List.getD_eq_getElem?_getD]
  cases h : l[i]? with
  | none => exact Or.inr rfl
  | some a => exact Or.inl (by simpa using List.getElem?_mem h)

theorem getD_of_lt {α : Type} (l : List α) (i : Nat) (d : α) (h : i < l.length) :
    l.getD i d = l[i] := by
  simp [List.getD_eq_getElem?_getD, List.getElem?_eq_getElem h]

theorem getCell_eq_zero_or_one {g : Grid} (hb : binaryGrid g) (r c : Nat) :
    getCell g r c = 0 ∨ getCell g r c = 1 := by
  unfold getCell
  rcases getD_mem_or_eq g r [] with hrow | hrow
  · rcases getD_mem_or_eq (g.getD r []) c 0 with hv | hv
    · exact hb _ hrow _ hv
    · exact Or.inl hv
  · rw [hrow]
    exact Or.inl (by simp)

theorem getCell_zeros (r c i j : Nat) : getCell (zeros r c) i j = 0 := by
  unfold getCell zeros
  rcases getD_mem_or_eq (List.replicate r (List.replicate c 0)) i [] with h | h
  · rw [List.eq_of_mem_replicate h]
    rcases getD_mem_or_eq (List.replicate c 0) j 0 with h2 | h2
    · exact List.eq_of_mem_replicate h2
    · exact h2
  · rw [h]
    simp

theorem isRect_zeros (r c : Nat) : isRect (zeros r c) r c := by
  refine ⟨by simp [zeros], ?_⟩
  intro row hrow
  rw [List.eq_of_mem_replicate hrow]
  simp

theorem binaryGrid_zeros (r c : Nat) : binaryGrid (zeros r c) := by
  intro row hrow v hv
  rw [List.eq_of_mem_replicate hrow] at hv
  exact Or.inl (List.eq_of_mem_replicate hv)

theorem setCell_eq_of_length_le {g : Grid} {r : Nat} (h : g.length ≤ r) (c v : Nat) :
    setCell g r c v = g := by
  unfold setCell
  exact List.set_eq_of_length_le h

theorem isRect_setCell {g : Grid} {R C : Nat} (h : isRect g R C) (r c v : Nat) :
    isRect (setCell g r c v) R C := by
  obtain ⟨hlen, hrows⟩ := h
  by_cases hr : r < g.length
  · refine ⟨by simp [setCell, hlen], ?_⟩
    intro row hrow
    rcases List.mem_or_eq_of_mem_set hrow with hmem | heq
    · exact hrows _ hmem
    · subst heq
      rw [List.length_set, getD_of_lt g r [] hr]
      exact hrows _ (List.getElem_mem hr)
  · rw [setCell_eq_of_length_le (by omega)]
    exact ⟨hlen, hrows⟩

theorem binaryGrid_setCell {g : Grid} (h : binaryGrid g) (r c : Nat) :
    binaryGrid (setCell g r c 1) := by
  by_cases hr : r < g.length
  · intro row hrow v hv
    rcases List.mem_or_eq_of_mem_set hrow with hmem | heq
    · exact h _ hmem _ hv
    · subst heq
      rcases List.mem_or_eq_of_mem_set hv with hvmem | hveq
      · rw [getD_of_lt g r [] hr] at hvmem
        exact h _ (List.getElem_mem hr) _ hvmem
      · exact Or.inr hveq
  · rw [setCell_eq_of_length_le (by omega)]
    exact h

theorem getCell_setCell_self {g : Grid} {R C : Nat} (h : isRect g R C)
    {r c : Nat} (hr : r < R) (hc : c < C) (v : Nat) :
    getCell (setCell g r c v) r c = v := by
  obtain ⟨hlen, hrows⟩ := h
  have hrg : r < g.length := by omega
  unfold getCell setCell
  rw [getD_of_lt _ r [] (by simpa using hrg)]
  rw [List.getElem_set_self]
  have hcl : c < (g.getD r []).length := by
    rw [getD_of_lt g r [] hrg]
    rw [hrows _ (List.getElem_mem hrg)]
    exact hc
  rw [getD_of_lt _ c 0 (by simpa using hcl)]
  rw [List.getElem_set_self]

theorem getCell_setCell_ne {g : Grid} (r c v i j : Nat) (hne : (i, j) ≠ (r, c)) :
    getCell (setCell g r c v) i j = getCell g i j := by
  unfold getCell setCell
  by_cases hi : i = r
  · subst hi
    have hj : j ≠ c := by
      intro hj
      exact hne (by rw [hj])
    by_cases hr : i < g.length
    · rw [getD_of_lt _ i [] (by simpa using hr), List.getElem_set_self,
        getD_of_lt g i [] hr]
      rw [List.getD_eq_getElem?_getD, List.getD_eq_getElem?_getD,
        List.getElem?_set_ne (by omega)]
    · rw [List.set_eq_of_length_le (by omega)]
  · simp only [List.getD_eq_getElem?_getD]
    rw [List.getElem?_set_ne (show r ≠ i by omega)]

/-! ## Claim theorems -/

/-- C1: for every Ready episode state, `step(FillSquare)` at the agent position
rewards +3 when the cell was unfilled and set in the reference (and the cell
becomes set), rewards -2 when the cell was unfilled and not set in the
reference (the cell still becomes set), and rewards -2 leaving the work
pattern unchanged when the cell was already filled; `done` is false in all
three cases. -/
theorem fill_square_spec (e : WritingEnvironment)
    (hrect : isRect e.pattern e.rows e.cols)
    (hrow : e.agentRow.toNat < e.rows) (hcol : e.agentCol.toNat < e.cols) :
    (getCell e.pattern e.agentRow.toNat e.agentCol.toNat = 0 →
      getCell e.referencePattern e.agentRow.toNat e.agentCol.toNat = 1 →
      e.step FILL_SQUARE =
        .ok ({ e with pattern := setCell e.pattern e.agentRow.toNat e.agentCol.toNat 1 },
          3, false) ∧
      getCell (setCell e.pattern e.agentRow.toNat e.agentCol.toNat 1)
        e.agentRow.toNat e.agentCol.toNat = 1) ∧
    (getCell e.pattern e.agentRow.toNat e.agentCol.toNat = 0 →
      getCell e.referencePattern e.agentRow.toNat e.agentCol.toNat ≠ 1 →
      e.step FILL_SQUARE =
        .ok ({ e with pattern := setCell e.pattern e.agentRow.toNat e.agentCol.toNat 1 },
          -2, false) ∧
      getCell (setCell e.pattern e.agentRow.toNat e.agentCol.toNat 1)
        e.agentRow.toNat e.agentCol.toNat = 1) ∧
    (getCell e.pattern e.agentRow.toNat e.agentCol.toNat ≠ 0 →
      e.step FILL_SQUARE = .ok (e, -2, false)) := by
  refine ⟨?_, ?_, ?_⟩
  · intro h0 h1
    exact ⟨by simp [WritingEnvironment.step, FILL_SQUARE, h0, h1],
      getCell_setCell_self hrect hrow hcol 1⟩
  · intro h0 h1
    exact ⟨by simp [WritingEnvironment.step, FILL_SQUARE, h0, h1],
      getCell_setCell_self hrect hrow hcol 1⟩
  · intro h0
    simp [WritingEnvironment.step, FILL_SQUARE, h0]

theorem fill_square_spec_witness :
    envDemo.step FILL_SQUARE =
      .ok ({ envDemo with
          pattern := setCell envDemo.pattern envDemo.agentRow.toNat envDemo.agentCol.toNat 1 },
        3, false) :=
  ((fill_square_spec envDemo (by decide) (by decide) (by decide)).1
    (by decide) (by decide)).1

/-- C2: for every Ready episode state, `step(Quit)` rewards +100 when the work
pattern equals the reference pattern element-wise over the full grid and -100
otherwise; in both cases `done` is true and the work pattern, reference
pattern and agent position are unchanged (the whole environment is returned
as-is). -/
theorem quit_spec (e : WritingEnvironment) :
    (e.pattern = e.referencePattern → e.step QUIT = .ok (e, 100, true)) ∧
    (e.pattern ≠ e.referencePattern → e.step QUIT = .ok (e, -100, true)) := by
  constructor <;> intro h <;>
    simp [WritingEnvironment.step, QUIT, FILL_SQUARE, h]

theorem quit_spec_witness :
    envDemoEq.step QUIT = .ok (envDemoEq, 100, true) ∧
    envDemo.step QUIT = .ok (envDemo, -100, true) :=
  ⟨(quit_spec envDemoEq).1 (by decide), (quit_spec envDemo).2 (by decide)⟩

/-- C3: for every Ready episode state, an in-bounds move changes the agent
position by exactly one cell in the requested direction with reward -1 and
`done` false, and a move that would leave `[0, rows) × [0, cols)` leaves the
position unchanged with reward -1000 and `done` true; the work and reference
patterns are unchanged in both cases. -/
theorem move_spec (e : WritingEnvironment) :
    ((0 ≤ e.agentRow - 1 ∧ e.agentRow - 1 < (e.rows : Int) ∧
        0 ≤ e.agentCol ∧ e.agentCol < (e.cols : Int)) →
      e.step MOVE_UP =
        .ok ({ e with agentRow := e.agentRow - 1, agentCol := e.agentCol }, -1, false)) ∧
    (¬(0 ≤ e.agentRow - 1 ∧ e.agentRow - 1 < (e.rows : Int) ∧
        0 ≤ e.agentCol ∧ e.agentCol < (e.cols : Int)) →
      e.step MOVE_UP = .ok (e, -1000, true)) ∧
    ((0 ≤ e.agentRow + 1 ∧ e.agentRow + 1 < (e.rows : Int) ∧
        0 ≤ e.agentCol ∧ e.agentCol < (e.cols : Int)) →
      e.step MOVE_DOWN =
        .ok ({ e with agentRow := e.agentRow + 1, agentCol := e.agentCol }, -1, false)) ∧
    (¬(0 ≤ e.agentRow + 1 ∧ e.agentRow + 1 < (e.rows : Int) ∧
        0 ≤ e.agentCol ∧ e.agentCol < (e.cols : Int)) →
      e.step MOVE_DOWN = .ok (e, -1000, true)) ∧
    ((0 ≤ e.agentRow ∧ e.agentRow < (e.rows : Int) ∧
        0 ≤ e.agentCol - 1 ∧ e.agentCol - 1 < (e.cols : Int)) →
      e.step MOVE_LEFT =
        .ok ({ e with agentRow := e.agentRow, agentCol := e.agentCol - 1 }, -1, false)) ∧
    (¬(0 ≤ e.agentRow ∧ e.agentRow < (e.rows : Int) ∧
        0 ≤ e.agentCol - 1 ∧ e.agentCol - 1 < (e.cols : Int)) →
      e.step MOVE_LEFT = .ok (e, -1000, true)) ∧
    ((0 ≤ e.agentRow ∧ e.agentRow < (e.rows : Int) ∧
        0 ≤ e.agentCol + 1 ∧ e.agentCol + 1 < (e.cols : Int)) →
      e.step MOVE_RIGHT =
        .ok ({ e with agentRow := e.agentRow, agentCol := e.agentCol + 1 }, -1, false)) ∧
    (¬(0 ≤ e.agentRow ∧ e.agentRow < (e.rows : Int) ∧
        0 ≤ e.agentCol + 1 ∧ e.agentCol + 1 < (e.cols : Int)) →
      e.step MOVE_RIGHT = .ok (e, -1000, true)) := by
  refine ⟨?_, ?_, ?_, ?_, ?_, ?_, ?_, ?_⟩ <;> intro h <;>
    simp [WritingEnvironment.step, WritingEnvironment.move,
      WritingEnvironment.isPositionValid, MOVE_UP, MOVE_DOWN, MOVE_LEFT,
      MOVE_RIGHT, FILL_SQUARE, QUIT, N_DISCRETE_ACTIONS, h] <;>
    rw [if_neg (by omega)]

set_option maxRecDepth 8192 in
theorem move_spec_witness :
    envDemo.step MOVE_DOWN =
      .ok ({ envDemo with agentRow := envDemo.agentRow + 1, agentCol := envDemo.agentCol },
        -1, false) ∧
    envDemo.step MOVE_UP = .ok (envDemo, -1000, true) :=
  ⟨(move_spec envDemo).2.2.1 (by decide), (move_spec envDemo).2.1 (by decide)⟩

/-- C4: `reset()` clears every cell of the work pattern to zero, puts the agent
at `(0, 0)`, draws a fresh reference pattern by calling the pattern set's
`sample()` exactly once (the episode's reference is the sampled grid rotated
by the quarter-turn count drawn from the environment's random source), and
returns the observation of the resulting state. -/
theorem reset_spec (e : WritingEnvironment) :
    (e.reset).2.pattern = zeros e.rows e.cols ∧
    (∀ r c, getCell (e.reset).2.pattern r c = 0) ∧
    (e.reset).2.agentRow = 0 ∧
    (e.reset).2.agentCol = 0 ∧
    (e.reset).2.patternSet = (e.patternSet.sample).2 ∧
    (∃ k, k < 4 ∧ (e.reset).2.referencePattern = rot90k (e.patternSet.sample).1 k) ∧
    (e.reset).1 = (e.reset).2.state := by
  rcases hs : e.patternSet.sample with ⟨g, ps⟩
  simp only [WritingEnvironment.reset, hs, randBelow]
  refine ⟨trivial, ?_, trivial, trivial, trivial,
    ⟨lcg e.randState % 4, Nat.mod_lt _ (by norm_num), rfl⟩, trivial⟩
  intro r c
  exact getCell_zeros e.rows e.cols r c

/-- C5: every action value outside the six recognised actions makes `step`
fail with the `Unrecognised action` error; the environment state is mutated
only on `.ok` paths (in the source the raise happens before any state write),
so a failing call leaves the episode state exactly as it was. -/
theorem invalid_action_spec (e : WritingEnvironment) (a : Int)
    (ha : ¬(0 ≤ a ∧ a < N_DISCRETE_ACTIONS)) :
    e.step a = .error "Unrecognised action" := by
  have h4 : a ≠ FILL_SQUARE := by
    rintro rfl
    exact ha (by decide)
  have h5 : a ≠ QUIT := by
    rintro rfl
    exact ha (by decide)
  simp [WritingEnvironment.step, h4, h5, ha]

theorem invalid_action_spec_witness :
    envDemo.step 99 = .error "Unrecognised action" ∧
    envDemo.step (-1) = .error "Unrecognised action" :=
  ⟨invalid_action_spec envDemo 99 (by decide),
    invalid_action_spec envDemo (-1) (by decide)⟩

/-- C6 (counterexample): in `envDemo` the rotation flag is unset, yet the
reference pattern produced by `reset()` differs from the grid returned by the
pattern set's `sample()`: `reset` rotates the sampled grid unconditionally
(`np.rot90(..., k=random.randint(0, 3))` draws `k = 1` here). -/
theorem rotation_flag_counterexample :
    envDemo.patternSet.withRotations = false ∧
    (envDemo.reset).2.referencePattern ≠ (envDemo.patternSet.sample).1 := by
  constructor
  · rfl
  · decide

/-- C6 (amended): when the rotation flag is unset the pattern set's `sample()`
applies no rotation (it returns the drawn catalogue entry as-is), but `reset()`
additionally rotates the sampled grid by a uniformly drawn quarter-turn count
`k ∈ {0, 1, 2, 3}` from the environment's general random source, regardless of
the flag; the episode's reference pattern is `rot90k(sample(), k)`. -/
theorem reset_always_rotates (e : WritingEnvironment)
    (h : e.patternSet.withRotations = false) :
    (e.patternSet.sample).1 =
      e.patternSet.catalogue.getD
        (lcg e.patternSet.rngState % e.patternSet.catalogue.length) [] ∧
    (e.reset).2.referencePattern =
      rot90k (e.patternSet.sample).1 (lcg e.randState % 4) ∧
    lcg e.randState % 4 < 4 := by
  refine ⟨?_, ?_, Nat.mod_lt _ (by norm_num)⟩
  · simp [PatternSet.sample, randBelow, h]
  · rcases hs : e.patternSet.sample with ⟨g, ps⟩
    simp [WritingEnvironment.reset, hs, randBelow]

theorem reset_always_rotates_witness :
    (envDemo.patternSet.sample).1 =
      envDemo.patternSet.catalogue.getD
        (lcg envDemo.patternSet.rngState % envDemo.patternSet.catalogue.length) [] ∧
    (envDemo.reset).2.referencePattern =
      rot90k (envDemo.patternSet.sample).1 (lcg envDemo.randState % 4) ∧
    lcg envDemo.randState % 4 < 4 :=
  reset_always_rotates envDemo rfl

theorem reset_congr {e1 e2 : WritingEnvironment}
    (hps : e1.patternSet = e2.patternSet) (hr : e1.randState = e2.randState) :
    (e1.reset).2.referencePattern = (e2.reset).2.referencePattern ∧
    (e1.reset).2.patternSet = (e2.reset).2.patternSet ∧
    (e1.reset).2.randState = (e2.reset).2.randState := by
  rcases hs1 : e1.patternSet.sample with ⟨g1, ps1⟩
  rcases hs2 : e2.patternSet.sample with ⟨g2, ps2⟩
  have hsame : (g1, ps1) = (g2, ps2) := by rw [← hs1, ← hs2, hps]
  have hg : g1 = g2 := congrArg Prod.fst hsame
  have hp : ps1 = ps2 := congrArg Prod.snd hsame
  simp [WritingEnvironment.reset, hs1, hs2, randBelow, hr, hg, hp]

theorem refSeq_congr (n : Nat) :
    ∀ e1 e2 : WritingEnvironment, e1.patternSet = e2.patternSet →
      e1.randState = e2.randState → refSeq e1 n = refSeq e2 n := by
  induction n with
  | zero => exact fun _ _ _ _ => rfl
  | succ n ih =>
    intro e1 e2 hps hr
    obtain ⟨href, hps', hr'⟩ := reset_congr hps hr
    simp only [refSeq]
    rw [href, ih _ _ hps' hr']

/-- C7: after `seed(s)`, the sequence of reference patterns produced by any
number of `reset()` calls (each including its applied rotation) is the same in
any two runs that share the pattern-set configuration, whatever episode state
and random states the two runs had before seeding. -/
theorem seed_determinism (e1 e2 : WritingEnvironment) (s n : Nat)
    (hh : e1.patternSet.height = e2.patternSet.height)
    (hw : e1.patternSet.width = e2.patternSet.width)
    (hcat : e1.patternSet.catalogue = e2.patternSet.catalogue)
    (hrot : e1.patternSet.withRotations = e2.patternSet.withRotations) :
    refSeq (e1.seed s) n = refSeq (e2.seed s) n := by
  apply refSeq_congr
  · show e1.patternSet.reseed s = e2.patternSet.reseed s
    unfold PatternSet.reseed
    cases hps1 : e1.patternSet
    cases hps2 : e2.patternSet
    simp_all
  · rfl

theorem seed_determinism_witness :
    refSeq (envDemo.seed 7) 2 = refSeq (envDemo2.seed 7) 2 :=
  seed_determinism envDemo envDemo2 7 2 rfl rfl rfl rfl

/-- C8 (counterexample): `step` is not guarded by an episode state machine.
`envDemo.step(Quit)` ends the episode (`done = true`) and leaves the state
unchanged, yet calling `step(FillSquare)` on that same post-terminal state
succeeds (and even mutates the work pattern) instead of failing with an
InvalidState-kind error. -/
theorem step_after_terminal_counterexample :
    envDemo.step QUIT = .ok (envDemo, -100, true) ∧
    envDemo.step FILL_SQUARE =
      .ok ({ envDemo with pattern := setCell envDemo.pattern 0 0 1 }, 3, false) := by
  exact ⟨rfl, rfl⟩

/-- C8 (amended): the source defines no Uninitialized or Terminal guard:
`step` called in any episode state — before the first `reset` or after a step
that returned `done = true` — succeeds for every recognised action value,
behaving exactly as in the Ready state. -/
theorem step_no_state_guard (e : WritingEnvironment) (a : Int)
    (h0 : 0 ≤ a) (h6 : a < N_DISCRETE_ACTIONS) :
    ∃ out, e.step a = .ok out := by
  have h6' : a < 6 := h6
  by_cases h4 : a = FILL_SQUARE
  · subst h4
    by_cases hp : getCell e.pattern e.agentRow.toNat e.agentCol.toNat = 0
    · by_cases hr : getCell e.referencePattern e.agentRow.toNat e.agentCol.toNat = 1
      · simp [WritingEnvironment.step, FILL_SQUARE, hp, hr]
      · simp [WritingEnvironment.step, FILL_SQUARE, hp, hr]
    · simp [WritingEnvironment.step, FILL_SQUARE, hp]
  by_cases h5 : a = QUIT
  · subst h5
    simp [WritingEnvironment.step, QUIT, FILL_SQUARE]
  have h4' : a ≠ 4 := h4
  have h5' : a ≠ 5 := h5
  have hd : a = 0 ∨ a = 1 ∨ a = 2 ∨ a = 3 := by omega
  rcases hd with rfl | rfl | rfl | rfl <;>
    [by_cases hv : e.isPositionValid (e.agentRow - 1, e.agentCol) = true;
      by_cases hv : e.isPositionValid (e.agentRow + 1, e.agentCol) = true;
      by_cases hv : e.isPositionValid (e.agentRow, e.agentCol - 1) = true;
      by_cases hv : e.isPositionValid (e.agentRow, e.agentCol + 1) = true] <;>
    simp [WritingEnvironment.step, WritingEnvironment.move,
      MOVE_UP, MOVE_DOWN, MOVE_LEFT, MOVE_RIGHT, FILL_SQUARE, QUIT,
      N_DISCRETE_ACTIONS, hv]

theorem step_no_state_guard_witness :
    ∃ out, envDemo.step MOVE_UP = .ok out :=
  step_no_state_guard envDemo MOVE_UP (by decide) (by decide)

/-- One event leaves every other key's recorded states untouched. -/
theorem applyEvent_untouched (h0 : KeyStateHandler) (ev : KeyEvent) (k : Nat)
    (hne : ev.symbol ≠ k) :
    (h0.applyEvent ev).prevState k = h0.prevState k ∧
    (h0.applyEvent ev).currState k = h0.currState k := by
  have hk : k ≠ ev.symbol := Ne.symm hne
  cases ev with
  | press s => exact ⟨if_neg hk, if_neg hk⟩
  | release s => exact ⟨if_neg hk, if_neg hk⟩

/-- A sequence of events not naming a key leaves that key's recorded states
untouched. -/
theorem applyEvents_untouched (es : List KeyEvent) (k : Nat) :
    ∀ h0 : KeyStateHandler, (∀ ev ∈ es, ev.symbol ≠ k) →
      (h0.applyEvents es).prevState k = h0.prevState k ∧
      (h0.applyEvents es).currState k = h0.currState k := by
  induction es with
  | nil => exact fun _ _ => ⟨rfl, rfl⟩
  | cons ev rest ih =>
    intro h0 hke
    have h1 := applyEvent_untouched h0 ev k (hke ev (List.mem_cons_self ev rest))
    have h2 := ih (h0.applyEvent ev) (fun e2 he2 => hke e2 (List.mem_cons_of_mem ev he2))
    exact ⟨h2.1.trans h1.1, h2.2.trans h1.2⟩

/-- C10: after any sequence of raw key-down/key-up events from startup,
`key_was_pressed` holds exactly when the previous recorded state of the key is
up and the current one is down, `key_was_released` exactly when the previous
state is down and the current one is up, `key_was_held` exactly when the key
is down in both states, and `__getitem__` returns the raw current state; a key
named by no recorded event is reported as up by all four queries. -/
theorem key_state_spec (es : List KeyEvent) (k : Nat) :
    ((KeyStateHandler.initial.applyEvents es).keyWasPressed k = true ↔
      (KeyStateHandler.initial.applyEvents es).prevState k = false ∧
      (KeyStateHandler.initial.applyEvents es).currState k = true) ∧
    ((KeyStateHandler.initial.applyEvents es).keyWasReleased k = true ↔
      (KeyStateHandler.initial.applyEvents es).prevState k = true ∧
      (KeyStateHandler.initial.applyEvents es).currState k = false) ∧
    ((KeyStateHandler.initial.applyEvents es).keyWasHeld k = true ↔
      (KeyStateHandler.initial.applyEvents es).prevState k = true ∧
      (KeyStateHandler.initial.applyEvents es).currState k = true) ∧
    ((KeyStateHandler.initial.applyEvents es).isDown k =
      (KeyStateHandler.initial.applyEvents es).currState k) ∧
    ((∀ ev ∈ es, ev.symbol ≠ k) →
      (KeyStateHandler.initial.applyEvents es).keyWasPressed k = false ∧
      (KeyStateHandler.initial.applyEvents es).keyWasReleased k = false ∧
      (KeyStateHandler.initial.applyEvents es).keyWasHeld k = false ∧
      (KeyStateHandler.initial.applyEvents es).isDown k = false) := by
  refine ⟨?_, ?_, ?_, rfl, ?_⟩
  · simp [KeyStateHandler.keyWasPressed]
  · simp [KeyStateHandler.keyWasReleased]
  · simp [KeyStateHandler.keyWasHeld]
  · intro hke
    obtain ⟨hp, hc⟩ := applyEvents_untouched es k KeyStateHandler.initial hke
    have hp' : (KeyStateHandler.initial.applyEvents es).prevState k = false := hp
    have hc' : (KeyStateHandler.initial.applyEvents es).currState k = false := hc
    refine ⟨?_, ?_, ?_, ?_⟩ <;>
      simp [KeyStateHandler.keyWasPressed, KeyStateHandler.keyWasReleased,
        KeyStateHandler.keyWasHeld, KeyStateHandler.isDown, hp', hc']

theorem isRect_rot90 {g : Grid} {r c : Nat} (hr : 0 < r) (h : isRect g r c) :
    isRect (rot90 g) c r := by
  obtain ⟨hlen, hrows⟩ := h
  have hhead : (g.headD []).length = c := by
    cases g with
    | nil => simp at hlen; omega
    | cons hd tl => exact hrows hd (by simp)
  constructor
  · have hl : (rot90 g).length = (g.headD []).length := by simp [rot90]
    rw [hl, hhead]
  · intro row hrow
    simp only [rot90, List.mem_map] at hrow
    rcases hrow with ⟨i, hi, heq⟩
    subst heq
    simp [hlen]

theorem binaryGrid_rot90 {g : Grid} (hb : binaryGrid g) : binaryGrid (rot90 g) := by
  intro row hrow v hv
  simp only [rot90, List.mem_map] at hrow
  rcases hrow with ⟨i, hi, heq⟩
  subst heq
  simp only [List.mem_map, List.mem_range] at hv
  rcases hv with ⟨j, hj, hveq⟩
  subst hveq
  exact getCell_eq_zero_or_one hb j _

theorem rot90k_good {n : Nat} (hn : 0 < n) {g : Grid}
    (h : isRect g n n) (hb : binaryGrid g) (k : Nat) :
    isRect (rot90k g k) n n ∧ binaryGrid (rot90k g k) := by
  induction k with
  | zero => exact ⟨h, hb⟩
  | succ k ih => exact ⟨isRect_rot90 hn ih.1, binaryGrid_rot90 ih.2⟩

theorem sample_config (ps : PatternSet) :
    (ps.sample).2.height = ps.height ∧ (ps.sample).2.width = ps.width ∧
    (ps.sample).2.catalogue = ps.catalogue ∧
    (ps.sample).2.withRotations = ps.withRotations := by
  cases hb : ps.withRotations <;> simp [PatternSet.sample, randBelow, hb]

theorem sample_grid_good {ps : PatternSet} (h : goodPatternSet ps) :
    isRect (ps.sample).1 ps.height ps.height ∧ binaryGrid (ps.sample).1 := by
  obtain ⟨hpos, hwh, hne, hcatg⟩ := h
  have hlen : 0 < ps.catalogue.length := List.length_pos.2 hne
  have hidx : lcg ps.rngState % ps.catalogue.length < ps.catalogue.length :=
    Nat.mod_lt _ hlen
  have hmem : ps.catalogue.getD (lcg ps.rngState % ps.catalogue.length) [] ∈
      ps.catalogue := by
    rw [getD_of_lt _ _ _ hidx]
    exact List.getElem_mem hidx
  have hgood := hcatg _ hmem
  cases hb : ps.withRotations
  · simpa [PatternSet.sample, randBelow, hb] using hgood
  · have := rot90k_good hpos hgood.1 hgood.2 (lcg (lcg ps.rngState) % 4)
    simpa [PatternSet.sample, randBelow, hb] using this

/-- The environment state after `reset`, as an explicit record. -/
theorem reset_state_eq (e : WritingEnvironment) :
    (e.reset).2 =
      { patternSet := (e.patternSet.sample).2,
        pattern := zeros e.rows e.cols,
        referencePattern := rot90k (e.patternSet.sample).1 (lcg e.randState % 4),
        agentRow := 0, agentCol := 0,
        randState := lcg e.randState } := by
  rcases hs : e.patternSet.sample with ⟨g, ps⟩
  simp [WritingEnvironment.reset, hs, randBelow]

theorem reset_good_wf {e : WritingEnvironment} (h : goodPatternSet e.patternSet) :
    goodPatternSet (e.reset).2.patternSet ∧ WritingEnvironment.wf (e.reset).2 := by
  obtain ⟨hh, hw, hcat, hrot⟩ := sample_config e.patternSet
  obtain ⟨hgr, hgb⟩ := sample_grid_good h
  obtain ⟨hpos, hwh, hne, hcatg⟩ := h
  rw [reset_state_eq]
  generalize lcg e.randState % 4 = k0
  constructor
  · show goodPatternSet (e.patternSet.sample).2
    refine ⟨?_, ?_, ?_, ?_⟩
    · rw [hh]; exact hpos
    · rw [hw, hh, hwh]
    · rw [hcat]; exact hne
    · rw [hcat, hh]; exact hcatg
  · refine ⟨?_, ?_, ?_, ?_, ?_, ?_, ?_, ?_⟩
    · show isRect (zeros e.rows e.cols)
        (e.patternSet.sample).2.height (e.patternSet.sample).2.width
      rw [hh, hw]
      exact isRect_zeros _ _
    · exact binaryGrid_zeros _ _
    · show isRect (rot90k (e.patternSet.sample).1 k0)
        (e.patternSet.sample).2.height (e.patternSet.sample).2.width
      rw [hh, hw, hwh]
      exact (rot90k_good hpos hgr hgb _).1
    · exact (rot90k_good hpos hgr hgb _).2
    · exact le_refl 0
    · show (0 : Int) < (e.patternSet.sample).2.height
      rw [hh]
      exact_mod_cast hpos
    · exact le_refl 0
    · show (0 : Int) < (e.patternSet.sample).2.width
      rw [hw, hwh]
      exact_mod_cast hpos

theorem step_ok_cases {e e' : WritingEnvironment} {a r : Int} {d : Bool}
    (h : e.step a = .ok (e', r, d)) :
    e' = e ∨
    e' = { e with pattern := setCell e.pattern e.agentRow.toNat e.agentCol.toNat 1 } ∨
    (∃ p : Int × Int, e.isPositionValid p = true ∧
      e' = { e with agentRow := p.1, agentCol := p.2 }) := by
  by_cases h4 : a = FILL_SQUARE
  · subst h4
    by_cases hp : getCell e.pattern e.agentRow.toNat e.agentCol.toNat = 0
    · by_cases hr1 : getCell e.referencePattern e.agentRow.toNat e.agentCol.toNat = 1
      · have hstep : e.step FILL_SQUARE =
            .ok ({ e with
              pattern := setCell e.pattern e.agentRow.toNat e.agentCol.toNat 1 },
              3, false) := by
          simp [WritingEnvironment.step, FILL_SQUARE, hp, hr1]
        rw [hstep] at h
        exact Or.inr (Or.inl (congrArg (fun t => t.1) (Except.ok.inj h)).symm)
      · have hstep : e.step FILL_SQUARE =
            .ok ({ e with
              pattern := setCell e.pattern e.agentRow.toNat e.agentCol.toNat 1 },
              -2, false) := by
          simp [WritingEnvironment.step, FILL_SQUARE, hp, hr1]
        rw [hstep] at h
        exact Or.inr (Or.inl (congrArg (fun t => t.1) (Except.ok.inj h)).symm)
    · have hstep : e.step FILL_SQUARE = .ok (e, -2, false) := by
        simp [WritingEnvironment.step, FILL_SQUARE, hp]
      rw [hstep] at h
      exact Or.inl (congrArg (fun t => t.1) (Except.ok.inj h)).symm
  by_cases h5 : a = QUIT
  · subst h5
    have hstep : e.step QUIT =
        .ok (e, if e.pattern = e.referencePattern then 100 else -100, true) := by
      simp [WritingEnvironment.step, QUIT, FILL_SQUARE]
    rw [hstep] at h
    exact Or.inl (congrArg (fun t => t.1) (Except.ok.inj h)).symm
  by_cases h6 : 0 ≤ a ∧ a < N_DISCRETE_ACTIONS
  · have h4' : a ≠ 4 := h4
    have h5' : a ≠ 5 := h5
    have h0' : 0 ≤ a := h6.1
    have h6' : a < 6 := h6.2
    have hd : a = 0 ∨ a = 1 ∨ a = 2 ∨ a = 3 := by omega
    rcases hd with rfl | rfl | rfl | rfl
    · by_cases hv : e.isPositionValid (e.agentRow - 1, e.agentCol) = true
      · have hstep : e.step 0 =
            .ok ({ e with agentRow := e.agentRow - 1, agentCol := e.agentCol },
              -1, false) := by
          simp [WritingEnvironment.step, WritingEnvironment.move, MOVE_UP,
            MOVE_DOWN, MOVE_LEFT, MOVE_RIGHT, FILL_SQUARE, QUIT,
            N_DISCRETE_ACTIONS, hv]
        rw [hstep] at h
        exact Or.inr (Or.inr ⟨(e.agentRow - 1, e.agentCol), hv,
          (congrArg (fun t => t.1) (Except.ok.inj h)).symm⟩)
      · rw [Bool.not_eq_true] at hv
        have hstep : e.step 0 = .ok (e, -1000, true) := by
          simp [WritingEnvironment.step, WritingEnvironment.move, MOVE_UP,
            MOVE_DOWN, MOVE_LEFT, MOVE_RIGHT, FILL_SQUARE, QUIT,
            N_DISCRETE_ACTIONS, hv]
        rw [hstep] at h
        exact Or.inl (congrArg (fun t => t.1) (Except.ok.inj h)).symm
    · by_cases hv : e.isPositionValid (e.agentRow + 1, e.agentCol) = true
      · have hstep : e.step 1 =
            .ok ({ e with agentRow := e.agentRow + 1, agentCol := e.agentCol },
              -1, false) := by
          simp [WritingEnvironment.step, WritingEnvironment.move, MOVE_UP,
            MOVE_DOWN, MOVE_LEFT, MOVE_RIGHT, FILL_SQUARE, QUIT,
            N_DISCRETE_ACTIONS, hv]
        rw [hstep] at h
        exact Or.inr (Or.inr ⟨(e.agentRow + 1, e.agentCol), hv,
          (congrArg (fun t => t.1) (Except.ok.inj h)).symm⟩)
      · rw [Bool.not_eq_true] at hv
        have hstep : e.step 1 = .ok (e, -1000, true) := by
          simp [WritingEnvironment.step, WritingEnvironment.move, MOVE_UP,
            MOVE_DOWN, MOVE_LEFT, MOVE_RIGHT, FILL_SQUARE, QUIT,
            N_DISCRETE_ACTIONS, hv]
        rw [hstep] at h
        exact Or.inl (congrArg (fun t => t.1) (Except.ok.inj h)).symm
    · by_cases hv : e.isPositionValid (e.agentRow, e.agentCol - 1) = true
      · have hstep : e.step 2 =
            .ok ({ e with agentRow := e.agentRow, agentCol := e.agentCol - 1 },
              -1, false) := by
          simp [WritingEnvironment.step, WritingEnvironment.move, MOVE_UP,
            MOVE_DOWN, MOVE_LEFT, MOVE_RIGHT, FILL_SQUARE, QUIT,
            N_DISCRETE_ACTIONS, hv]
        rw [hstep] at h
        exact Or.inr (Or.inr ⟨(e.agentRow, e.agentCol - 1), hv,
          (congrArg (fun t => t.1) (Except.ok.inj h)).symm⟩)
      · rw [Bool.not_eq_true] at hv
        have hstep : e.step 2 = .ok (e, -1000, true) := by
          simp [WritingEnvironment.step, WritingEnvironment.move, MOVE_UP,
            MOVE_DOWN, MOVE_LEFT, MOVE_RIGHT, FILL_SQUARE, QUIT,
            N_DISCRETE_ACTIONS, hv]
        rw [hstep] at h
        exact Or.inl (congrArg (fun t => t.1) (Except.ok.inj h)).symm
    · by_cases hv : e.isPositionValid (e.agentRow, e.agentCol + 1) = true
      · have hstep : e.step 3 =
            .ok ({ e with agentRow := e.agentRow, agentCol := e.agentCol + 1 },
              -1, false) := by
          simp [WritingEnvironment.step, WritingEnvironment.move, MOVE_UP,
            MOVE_DOWN, MOVE_LEFT, MOVE_RIGHT, FILL_SQUARE, QUIT,
            N_DISCRETE_ACTIONS, hv]
        rw [hstep] at h
        exact Or.inr (Or.inr ⟨(e.agentRow, e.agentCol + 1), hv,
          (congrArg (fun t => t.1) (Except.ok.inj h)).symm⟩)
      · rw [Bool.not_eq_true] at hv
        have hstep : e.step 3 = .ok (e, -1000, true) := by
          simp [WritingEnvironment.step, WritingEnvironment.move, MOVE_UP,
            MOVE_DOWN, MOVE_LEFT, MOVE_RIGHT, FILL_SQUARE, QUIT,
            N_DISCRETE_ACTIONS, hv]
        rw [hstep] at h
        exact Or.inl (congrArg (fun t => t.1) (Except.ok.inj h)).symm
  · exfalso
    have h4' : a ≠ FILL_SQUARE := h4
    have h5' : a ≠ QUIT := h5
    simp [WritingEnvironment.step, h4', h5', h6] at h

theorem step_preserve {e e' : WritingEnvironment} {a r : Int} {d : Bool}
    (hwf : WritingEnvironment.wf e) (h : e.step a = .ok (e', r, d)) :
    e'.patternSet = e.patternSet ∧ WritingEnvironment.wf e' := by
  obtain ⟨hpr, hpb, hrr, hrb, h1, h2, h3, h4⟩ := hwf
  rcases step_ok_cases h with rfl | rfl | ⟨p, hv, rfl⟩
  · exact ⟨rfl, hpr, hpb, hrr, hrb, h1, h2, h3, h4⟩
  · exact ⟨rfl, isRect_setCell hpr _ _ _, binaryGrid_setCell hpb _ _,
      hrr, hrb, h1, h2, h3, h4⟩
  · have hv' := of_decide_eq_true hv
    exact ⟨rfl, hpr, hpb, hrr, hrb, hv'.1, hv'.2.1, hv'.2.2.1, hv'.2.2.2⟩

theorem reachable_invariant {e : WritingEnvironment} (h : Reachable e) :
    goodPatternSet e.patternSet ∧ WritingEnvironment.wf e := by
  induction h with
  | start e hg => exact reset_good_wf hg
  | doStep e e' a r d hre hstep ih =>
    obtain ⟨hps, hwf'⟩ := step_preserve ih.2 hstep
    exact ⟨by rw [hps]; exact ih.1, hwf'⟩
  | doSeed e s hre ih => exact ⟨ih.1, ih.2⟩
  | doReset e hre ih => exact reset_good_wf ih.1

theorem getCell_positionLayer_ne (e : WritingEnvironment) (r c : Nat)
    (hne : (r, c) ≠ (e.agentRow.toNat, e.agentCol.toNat)) :
    getCell e.positionLayer r c = 0 := by
  unfold WritingEnvironment.positionLayer
  rw [getCell_setCell_ne _ _ _ _ _ hne]
  exact getCell_zeros _ _ _ _

/-- C9: in every reachable episode state the observation is the 3-layer stack
(work pattern, reference pattern, one-hot agent position) in that order; each
layer is a `rows × cols` grid with every value in {0, 1}, and the position
layer has exactly one cell set, at the agent's current position.  The
observation is a pure function of the episode state (`state` is derived,
never stored), so computing it mutates nothing. -/
theorem observation_spec (e : WritingEnvironment) (h : Reachable e) :
    e.state = (e.pattern, e.referencePattern, e.positionLayer) ∧
    isRect e.pattern e.rows e.cols ∧ binaryGrid e.pattern ∧
    isRect e.referencePattern e.rows e.cols ∧ binaryGrid e.referencePattern ∧
    isRect e.positionLayer e.rows e.cols ∧ binaryGrid e.positionLayer ∧
    getCell e.positionLayer e.agentRow.toNat e.agentCol.toNat = 1 ∧
    (∀ r c, (r, c) ≠ (e.agentRow.toNat, e.agentCol.toNat) →
      getCell e.positionLayer r c = 0) := by
  obtain ⟨hg, hpr, hpb, hrr, hrb, h1, h2, h3, h4⟩ := reachable_invariant h
  refine ⟨rfl, hpr, hpb, hrr, hrb, ?_, ?_, ?_, ?_⟩
  · exact isRect_setCell (isRect_zeros _ _) _ _ _
  · exact binaryGrid_setCell (binaryGrid_zeros _ _) _ _
  · exact getCell_setCell_self (isRect_zeros _ _) (by omega) (by omega) 1
  · exact fun r c hne => getCell_positionLayer_ne e r c hne

theorem observation_spec_witness :
    getCell ((envDemo.reset).2).positionLayer
      ((envDemo.reset).2).agentRow.toNat ((envDemo.reset).2).agentCol.toNat = 1 ∧
    isRect ((envDemo.reset).2).pattern ((envDemo.reset).2).rows
      ((envDemo.reset).2).cols :=
  ⟨(observation_spec _ (Reachable.start envDemo (by decide))).2.2.2.2.2.2.2.1,
    (observation_spec _ (Reachable.start envDemo (by decide))).2.1⟩

theorem key_state_spec_witness :
    (KeyStateHandler.initial.applyEvents [KeyEvent.press 3]).keyWasPressed 3 = true ∧
    (KeyStateHandler.initial.applyEvents [KeyEvent.press 3]).isDown 5 = false := by
  constructor
  · exact (key_state_spec [KeyEvent.press 3] 3).1.mpr ⟨rfl, rfl⟩
  · exact ((key_state_spec [KeyEvent.press 3] 5).2.2.2.2 (by decide)).2.2.2

end Learning2Write
